import Mathlib

/-!
Shallow embedding of the SERP heading-analyzer pipeline
(`serp_heading_analyzer.py` and the analysis loop of `app.py`).

Python strings are modelled as `List Char` (`PyStr`); the external
BeautifulSoup parser is abstracted as a function producing a `Soup`,
a document-order list of elements, each carrying its tag name, its
attribute association list and its text content.  The external HTTP
layer (`requests.get`) is abstracted as a function returning either a
response (status code and body text) or `none` when the request raises
(network error or timeout).  The per-URL try/except of
`extract_page_elements` is the `Option` in its result.
-/

set_option maxHeartbeats 1000000

/-- Python strings, modelled as lists of characters. -/
abbrev PyStr := List Char

/-- Embeds a Lean string literal as a `PyStr`. -/
def str (s : String) : PyStr := s.data

/-- Python `s.lstrip()`: drop leading whitespace. -/
def lstrip (s : PyStr) : PyStr := s.dropWhile Char.isWhitespace

/-- Python `s.rstrip()`: drop trailing whitespace. -/
def rstrip (s : PyStr) : PyStr := (s.reverse.dropWhile Char.isWhitespace).reverse

/-- Python `s.strip()` (also the trimming done by `get_text(strip=True)`). -/
def pyStrip (s : PyStr) : PyStr := rstrip (lstrip s)

/-- Python `'\n'.join(xs)`, as used when flattening heading lists for Excel. -/
def pyJoinNL : List PyStr → PyStr
  | [] => []
  | [w] => w
  | w :: x :: ws => w ++ '\n' :: pyJoinNL (x :: ws)

/-- Python `s.split('\n')`: split on every newline; the empty string yields
a single empty field, exactly as in Python. -/
def pySplitNL : PyStr → List PyStr
  | [] => [[]]
  | c :: cs =>
    match pySplitNL cs with
    | [] => [[]]
    | w :: ws => if c = '\n' then [] :: w :: ws else (c :: w) :: ws

/-- One parsed HTML element: tag name, attribute association list, and the
text content that `get_text()` would return (untrimmed). -/
structure Elem where
  tag : PyStr
  attrs : List (PyStr × PyStr)
  text : PyStr
deriving DecidableEq

/-- A parsed document: its elements in document order. -/
abbrev Soup := List Elem

/-- Python `element.get(key)` on a BeautifulSoup tag: first binding of the
attribute key, if any. -/
def getAttr (e : Elem) (key : PyStr) : Option PyStr :=
  (e.attrs.find? (fun kv => kv.fst == key)).map Prod.snd

/-- BeautifulSoup `soup.find(tag)`: first element with the tag, in
document order. -/
def find (soup : Soup) (tag : PyStr) : Option Elem :=
  soup.find? (fun e => e.tag == tag)

/-- BeautifulSoup `soup.find(tag, attrs=\x7bkey: val\x7d)`: first element with
the tag whose attribute `key` equals `val`. -/
def findAttrVal (soup : Soup) (tag key val : PyStr) : Option Elem :=
  soup.find? (fun e => e.tag == tag && getAttr e key == some val)

/-- BeautifulSoup `soup.find_all(tag)`: all elements with the tag, in
document order. -/
def findAll (soup : Soup) (tag : PyStr) : List Elem :=
  soup.filter (fun e => e.tag == tag)

/-- SERPAnalyzer._get_text: `element.get_text(strip=True) if element else ''`. -/
def getText (e : Option Elem) : PyStr :=
  match e with
  | some el => pyStrip el.text
  | none => []

/-- SERPAnalyzer._get_meta_description:
`soup.find('meta', attrs=\x7b'name': 'description'\x7d) or
 soup.find('meta', attrs=\x7b'property': 'og:description'\x7d)`, then
`meta.get('content', '').strip() if meta else ''`.
Python `or` picks the first operand when it is a tag (tags are truthy). -/
def getMetaDescription (soup : Soup) : PyStr :=
  match (findAttrVal soup (str "meta") (str "name") (str "description")).orElse
      (fun _ => findAttrVal soup (str "meta") (str "property") (str "og:description")) with
  | some meta => pyStrip ((getAttr meta (str "content")).getD [])
  | none => []

/-- The comprehension `[h.get_text(strip=True) for h in soup.find_all(tag)
if h.get_text(strip=True)]`: stripped texts of all matching elements, in
document order, keeping only the non-empty ones (Python truthiness of a
string is non-emptiness). -/
def extractHeadings (soup : Soup) (tag : PyStr) : List PyStr :=
  ((findAll soup tag).map (fun h => pyStrip h.text)).filter (fun t => t != [])

/-- The `elements` dict built by extract_page_elements (before `rank` is
added by the aggregation loop). -/
structure PageElements where
  url : PyStr
  title : PyStr
  meta_description : PyStr
  h1 : List PyStr
  h2 : List PyStr
  h3 : List PyStr
  h4 : List PyStr
  h5 : List PyStr
  h6 : List PyStr
deriving DecidableEq

/-- Construction of the `elements` dict from the parsed soup. -/
def mkElements (url : PyStr) (soup : Soup) : PageElements :=
  { url := url
    title := getText (find soup (str "title"))
    meta_description := getMetaDescription soup
    h1 := extractHeadings soup (str "h1")
    h2 := extractHeadings soup (str "h2")
    h3 := extractHeadings soup (str "h3")
    h4 := extractHeadings soup (str "h4")
    h5 := extractHeadings soup (str "h5")
    h6 := extractHeadings soup (str "h6") }

/-- Result of `requests.get`: HTTP status code and decoded body text
(`page.text`).  The code never inspects `status`. -/
structure HttpResponse where
  status : Nat
  body : PyStr
deriving DecidableEq

/-- Observable events of the aggregation loop: the `time.sleep(self.delay)`
pause and the issuing of one HTTP request. -/
inductive Event where
  | sleepEv (delay : Rat)
  | fetchEv (url : PyStr)
deriving DecidableEq

/-- SERPAnalyzer.extract_page_elements, instrumented with its event trace.
Inside the `try` block the code first sleeps `self.delay`, then calls
`requests.get(url, ...)`.  `fetchRaw url = none` models the request
raising (network error / timeout); the `except` clause then returns
`None`.  On any response the body is parsed with BeautifulSoup (`parse`)
and the elements dict is built; the HTTP status is never checked. -/
def extractPageElementsTr (delay : Rat) (fetchRaw : PyStr → Option HttpResponse)
    (parse : PyStr → Soup) (url : PyStr) : List Event × Option PageElements :=
  match fetchRaw url with
  | none => ([Event.sleepEv delay, Event.fetchEv url], none)
  | some page =>
      ([Event.sleepEv delay, Event.fetchEv url],
       some (mkElements url (parse page.body)))

/-- SERPAnalyzer.extract_page_elements: the returned dict (or `None`). -/
def extractPageElements (delay : Rat) (fetchRaw : PyStr → Option HttpResponse)
    (parse : PyStr → Soup) (url : PyStr) : Option PageElements :=
  (extractPageElementsTr delay fetchRaw parse url).2

/-- One record of an analysis run: the elements dict plus the `rank` key
added by the loop. -/
structure PageRecord where
  elements : PageElements
  rank : Nat
deriving DecidableEq

/-- The aggregation loop shared by SERPAnalyzer.analyze_serp and the
analysis loop of app.py:
`for i, url in enumerate(urls, 1): page_elements = ...; if page_elements:
page_elements['rank'] = i; results.append(page_elements)`.
Returns the event trace together with the accumulated records. -/
def analyzeLoop (delay : Rat) (fetchRaw : PyStr → Option HttpResponse)
    (parse : PyStr → Soup) : List PyStr → Nat → List Event × List PageRecord
  | [], _ => ([], [])
  | url :: rest, i =>
    let step := extractPageElementsTr delay fetchRaw parse url
    let next := analyzeLoop delay fetchRaw parse rest (i + 1)
    match step.2 with
    | some pe => (step.1 ++ next.1, { elements := pe, rank := i } :: next.2)
    | none => (step.1 ++ next.1, next.2)

/-- SERPAnalyzer.analyze_serp (and the app.py loop): the record list,
with `enumerate(urls, 1)` starting the index at 1. -/
def analyzeSerp (delay : Rat) (fetchRaw : PyStr → Option HttpResponse)
    (parse : PyStr → Soup) (urls : List PyStr) : List PageRecord :=
  (analyzeLoop delay fetchRaw parse urls 1).2

/-- The event trace of one whole run. -/
def analyzeTrace (delay : Rat) (fetchRaw : PyStr → Option HttpResponse)
    (parse : PyStr → Soup) (urls : List PyStr) : List Event :=
  (analyzeLoop delay fetchRaw parse urls 1).1

/-- One row of the Excel sheet: `row = result.copy()` followed by
`row[key] = '\n'.join(row[key])` for each heading key. -/
structure ExcelRow where
  url : PyStr
  title : PyStr
  meta_description : PyStr
  h1 : PyStr
  h2 : PyStr
  h3 : PyStr
  h4 : PyStr
  h5 : PyStr
  h6 : PyStr
  rank : Nat
deriving DecidableEq

/-- Flattening of one record for the Excel sheet. -/
def excelRow (r : PageRecord) : ExcelRow :=
  { url := r.elements.url
    title := r.elements.title
    meta_description := r.elements.meta_description
    h1 := pyJoinNL r.elements.h1
    h2 := pyJoinNL r.elements.h2
    h3 := pyJoinNL r.elements.h3
    h4 := pyJoinNL r.elements.h4
    h5 := pyJoinNL r.elements.h5
    h6 := pyJoinNL r.elements.h6
    rank := r.rank }

/-- Outcome of SERPAnalyzer.save_results: `if not self.results: return`
writes nothing; otherwise both the JSON data and the flattened Excel
data are written. -/
inductive SaveOutcome where
  | noResults
  | saved (jsonData : List PageRecord) (excelData : List ExcelRow)
deriving DecidableEq

/-- SERPAnalyzer.save_results, as the decision of what gets exported. -/
def saveResults (results : List PageRecord) : SaveOutcome :=
  if results.isEmpty then SaveOutcome.noResults
  else SaveOutcome.saved results (results.map excelRow)

/-- Outcome of the app.py run: `if not urls: st.error; st.stop()`, then the
loop, then `if not results: st.error; st.stop()`, and only then the
export of both files. -/
inductive AppOutcome where
  | noUrls
  | noResults
  | exported (records : List PageRecord) (excel : List ExcelRow)
deriving DecidableEq

/-- Whether the app outcome exported any file. -/
def AppOutcome.isExported : AppOutcome → Bool
  | AppOutcome.exported _ _ => true
  | _ => false

/-- The app.py control flow around the loop. -/
def appRun (delay : Rat) (fetchRaw : PyStr → Option HttpResponse)
    (parse : PyStr → Soup) (urls : List PyStr) : AppOutcome :=
  if urls.isEmpty then AppOutcome.noUrls
  else
    let results := analyzeSerp delay fetchRaw parse urls
    if results.isEmpty then AppOutcome.noResults
    else AppOutcome.exported results (results.map excelRow)

/-! Concrete inputs used to evaluate the pipeline at specific points. -/

/-- A two-URL run. -/
def urls1 : List PyStr := [str "a", str "b"]

/-- A fetcher where the request for URL `"a"` raises and the one for
`"b"` succeeds. -/
def fetch1 (u : PyStr) : Option HttpResponse :=
  if u = str "a" then none else some { status := 200, body := str "x" }

/-- A parser returning an empty document. -/
def parse1 (_ : PyStr) : Soup := []

/-- A fetcher whose every response carries HTTP status 404. -/
def fetch404 (_ : PyStr) : Option HttpResponse :=
  some { status := 404, body := str "x" }

/-- A parser returning a document with one `title` element. -/
def parseT (_ : PyStr) : Soup := [{ tag := str "title", attrs := [], text := str "T" }]

/-- A document with a single `h1` whose text has surrounding whitespace. -/
def soupH : Soup := [{ tag := str "h1", attrs := [], text := str " x " }]

/-- A `meta` element carrying `property=og:description` and `content=x`. -/
def elemOg : Elem :=
  { tag := str "meta"
    attrs := [(str "property", str "og:description"), (str "content", str "x")]
    text := [] }

/-- A document whose only description carrier is the `og:description` meta. -/
def soupOg : Soup := [elemOg]

/-- A `meta name=description` element with no `content` attribute. -/
def elemNameNoContent : Elem :=
  { tag := str "meta", attrs := [(str "name", str "description")], text := [] }

/-- A document holding both a contentless `meta name=description` and a
`meta property=og:description` with content `"x"`. -/
def soupBoth : Soup := [elemNameNoContent, elemOg]

/-! Helper lemmas. -/

theorem dropWhile_dropWhile_self (p : α → Bool) (l : List α) :
    (l.dropWhile p).dropWhile p = l.dropWhile p := by
  induction l with
  | nil => rfl
  | cons c cs ih =>
    by_cases h : p c
    · simpa [List.dropWhile_cons, h] using ih
    · simp [List.dropWhile_cons, h]

theorem dropWhile_eq_self_of_head? (p : α → Bool) (l : List α)
    (h : ∀ c, l.head? = some c → p c = false) : l.dropWhile p = l := by
  cases l with
  | nil => rfl
  | cons c cs => simp [List.dropWhile_cons, h c rfl]

theorem head?_dropWhile_false (p : α → Bool) (l : List α) (c : α)
    (h : (l.dropWhile p).head? = some c) : p c = false := by
  have := List.head?_dropWhile_not p l
  rw [h] at this
  exact this

theorem rstrip_prefix (l : PyStr) : rstrip l <+: l := by
  have h := List.dropWhile_suffix (l := l.reverse) Char.isWhitespace
  have := List.reverse_prefix.mpr h
  simpa [rstrip] using this

theorem head?_rstrip (l : PyStr) (c : Char) (h : (rstrip l).head? = some c) :
    l.head? = some c := by
  obtain ⟨t, ht⟩ := rstrip_prefix l
  rw [← ht, List.head?_append, h]
  rfl

theorem lstrip_rstrip_lstrip (s : PyStr) :
    lstrip (rstrip (lstrip s)) = rstrip (lstrip s) := by
  apply dropWhile_eq_self_of_head?
  intro c hc
  exact head?_dropWhile_false Char.isWhitespace s c (head?_rstrip _ c hc)

theorem rstrip_rstrip (l : PyStr) : rstrip (rstrip l) = rstrip l := by
  simp [rstrip, List.reverse_reverse, dropWhile_dropWhile_self]

theorem pyStrip_idem (s : PyStr) : pyStrip (pyStrip s) = pyStrip s := by
  unfold pyStrip
  rw [lstrip_rstrip_lstrip, rstrip_rstrip]

theorem pySplitNL_ne_nil (s : PyStr) : pySplitNL s ≠ [] := by
  induction s with
  | nil => simp [pySplitNL]
  | cons c cs ih =>
    simp only [pySplitNL]
    cases h : pySplitNL cs with
    | nil => exact absurd h ih
    | cons w ws =>
      by_cases hc : c = '\n' <;> simp [hc]

theorem pySplitNL_no_nl (w : PyStr) (h : '\n' ∉ w) : pySplitNL w = [w] := by
  induction w with
  | nil => rfl
  | cons c cs ih =>
    have hc : c ≠ '\n' := fun e => h (e ▸ List.mem_cons_self c cs)
    have hcs : '\n' ∉ cs := fun e => h (List.mem_cons_of_mem c e)
    simp [pySplitNL, ih hcs, hc]

theorem pySplitNL_append_nl (w rest : PyStr) (h : '\n' ∉ w) :
    pySplitNL (w ++ '\n' :: rest) = w :: pySplitNL rest := by
  induction w with
  | nil =>
    simp only [List.nil_append, pySplitNL]
    cases hr : pySplitNL rest with
    | nil => exact absurd hr (pySplitNL_ne_nil rest)
    | cons x xs => simp [← hr]
  | cons c cs ih =>
    have hc : c ≠ '\n' := fun e => h (e ▸ List.mem_cons_self c cs)
    have hcs : '\n' ∉ cs := fun e => h (List.mem_cons_of_mem c e)
    simp only [List.cons_append, pySplitNL, List.append_eq]
    rw [ih hcs]
    simp [hc]

theorem pySplitNL_pyJoinNL (l : List PyStr) (hne : l ≠ [])
    (hnl : ∀ w ∈ l, '\n' ∉ w) : pySplitNL (pyJoinNL l) = l := by
  induction l with
  | nil => exact absurd rfl hne
  | cons x xs ih =>
    cases xs with
    | nil => simpa [pyJoinNL] using pySplitNL_no_nl x (hnl x (List.mem_cons_self x []))
    | cons y ys =>
      have hx : '\n' ∉ x := hnl x (List.mem_cons_self x (y :: ys))
      have hys : ∀ w ∈ y :: ys, '\n' ∉ w := fun w hw => hnl w (List.mem_cons_of_mem x hw)
      rw [pyJoinNL, pySplitNL_append_nl x _ hx, ih (by simp) hys]

theorem extractTr_fst (delay : Rat) (fetchRaw : PyStr → Option HttpResponse)
    (parse : PyStr → Soup) (url : PyStr) :
    (extractPageElementsTr delay fetchRaw parse url).1 =
      [Event.sleepEv delay, Event.fetchEv url] := by
  cases h : fetchRaw url <;> simp [extractPageElementsTr, h]

theorem extractTr_snd (delay : Rat) (fetchRaw : PyStr → Option HttpResponse)
    (parse : PyStr → Soup) (url : PyStr) :
    (extractPageElementsTr delay fetchRaw parse url).2 =
      (fetchRaw url).map (fun resp => mkElements url (parse resp.body)) := by
  cases h : fetchRaw url <;> simp [extractPageElementsTr, h]

theorem analyzeLoop_fst (delay : Rat) (fetchRaw : PyStr → Option HttpResponse)
    (parse : PyStr → Soup) (urls : List PyStr) : ∀ i : Nat,
    (analyzeLoop delay fetchRaw parse urls i).1 =
      (urls.map (fun u => [Event.sleepEv delay, Event.fetchEv u])).flatten := by
  induction urls with
  | nil => intro i; rfl
  | cons u rest ih =>
    intro i
    cases h : fetchRaw u <;>
      simp [analyzeLoop, extractPageElementsTr, h, ih (i + 1)]

theorem analyzeLoop_snd (delay : Rat) (fetchRaw : PyStr → Option HttpResponse)
    (parse : PyStr → Soup) (urls : List PyStr) : ∀ i : Nat,
    (analyzeLoop delay fetchRaw parse urls i).2 =
      (List.enumFrom i urls).filterMap (fun q =>
        (fetchRaw q.2).map (fun resp =>
          { elements := mkElements q.2 (parse resp.body), rank := q.1 })) := by
  induction urls with
  | nil => intro i; rfl
  | cons u rest ih =>
    intro i
    cases h : fetchRaw u <;>
      simp [analyzeLoop, extractPageElementsTr, h, ih (i + 1), List.enumFrom]

theorem analyzeLoop_ranks (delay : Rat) (fetchRaw : PyStr → Option HttpResponse)
    (parse : PyStr → Soup) (urls : List PyStr) : ∀ i : Nat,
    ((analyzeLoop delay fetchRaw parse urls i).2).map PageRecord.rank =
      ((List.enumFrom i urls).filter (fun q => (fetchRaw q.2).isSome)).map Prod.fst := by
  induction urls with
  | nil => intro i; rfl
  | cons u rest ih =>
    intro i
    cases h : fetchRaw u <;>
      simp [analyzeLoop, extractPageElementsTr, h, ih (i + 1), List.enumFrom]

/-! Claim theorems. -/

/-- Claim C1, counterexample: with two URLs where the first fetch raises and
the second succeeds, the run has one record whose rank is 2, not 1 — the
failed URL consumed rank slot 1, so ranks are not the set 1..n of the
n successes. -/
theorem C1_counterexample :
    (analyzeSerp 2 fetch1 parse1 urls1).length = 1 ∧
    (analyzeSerp 2 fetch1 parse1 urls1).map PageRecord.rank ≠ [1] := by
  decide

/-- Claim C1, amended: the rank fields of an AnalysisRun are exactly the
original 1-based positions of the successfully fetched URLs in the input
order; a failed URL consumes its position, so ranks may have gaps. -/
theorem C1_rank_positions (delay : Rat) (fetchRaw : PyStr → Option HttpResponse)
    (parse : PyStr → Soup) (urls : List PyStr) :
    (analyzeSerp delay fetchRaw parse urls).map PageRecord.rank =
      ((List.enumFrom 1 urls).filter (fun q => (fetchRaw q.2).isSome)).map Prod.fst :=
  analyzeLoop_ranks delay fetchRaw parse urls 1

/-- Claim C2, counterexample: a fetch that returns an HTTP 404 response
still produces a record — the status code is never checked. -/
theorem C2_counterexample :
    (fetch404 (str "u")).map HttpResponse.status = some 404 ∧
    (extractPageElements 2 fetch404 parseT (str "u")).isSome = true := by
  decide

/-- Claim C2, amended: extract_page_elements produces no record exactly when
the request raises (network error or timeout); any response — regardless of
its HTTP status — is parsed and produces a record. -/
theorem C2_skip_only_on_raise (delay : Rat) (fetchRaw : PyStr → Option HttpResponse)
    (parse : PyStr → Soup) (url : PyStr) :
    extractPageElements delay fetchRaw parse url =
      (fetchRaw url).map (fun resp => mkElements url (parse resp.body)) :=
  extractTr_snd delay fetchRaw parse url

/-- Claim C3, counterexample: the pipeline produces the empty heading list
for a page with no h1 elements, the precondition (no newline in any entry)
holds vacuously, yet joining then splitting yields a one-element list, not
the original empty list. -/
theorem C3_counterexample :
    (mkElements (str "u") []).h1 = [] ∧
    pySplitNL (pyJoinNL ((mkElements (str "u") []).h1)) ≠ (mkElements (str "u") []).h1 := by
  decide

/-- Claim C3, amended: for every non-empty heading-level list produced by
the pipeline whose entries contain no newline, joining with newlines and
splitting on newlines recovers the original list (the empty list instead
round-trips to a single empty string). -/
theorem C3_roundtrip (soup : Soup) (tag : PyStr)
    (hne : extractHeadings soup tag ≠ [])
    (hnl : ∀ w ∈ extractHeadings soup tag, '\n' ∉ w) :
    pySplitNL (pyJoinNL (extractHeadings soup tag)) = extractHeadings soup tag :=
  pySplitNL_pyJoinNL _ hne hnl

/-- Claim C3 witness: the round trip on a document with one h1 heading. -/
theorem C3_roundtrip_witness :
    pySplitNL (pyJoinNL (extractHeadings soupH (str "h1"))) =
      extractHeadings soupH (str "h1") :=
  C3_roundtrip soupH (str "h1") (by decide) (by decide)

/-- Claim C4: every entry of an extracted heading list is non-empty and
invariant under trimming (hence not whitespace-only), and the list is a
sublist of the document-order list of stripped texts of all matching
elements, so entries appear in document order. -/
theorem C4_headings_clean (soup : Soup) (tag : PyStr) :
    (∀ s ∈ extractHeadings soup tag, s ≠ [] ∧ pyStrip s = s) ∧
    List.Sublist (extractHeadings soup tag)
      ((findAll soup tag).map (fun h => pyStrip h.text)) := by
  constructor
  · intro s hs
    unfold extractHeadings at hs
    obtain ⟨hmem, hne⟩ := List.mem_filter.mp hs
    refine ⟨by simpa using hne, ?_⟩
    obtain ⟨h, _, rfl⟩ := List.mem_map.mp hmem
    exact pyStrip_idem h.text
  · exact List.filter_sublist _

/-- Claim C4 witness: the single heading extracted from `soupH`. -/
theorem C4_headings_clean_witness : str "x" ≠ [] ∧ pyStrip (str "x") = str "x" :=
  (C4_headings_clean soupH (str "h1")).1 (str "x") (by decide)

/-- Claim C5: the meta description is the trimmed content of the first
`meta name=description` element; failing that, of the first
`meta property=og:description` element; and empty when neither exists. -/
theorem C5_meta_description_cases (soup : Soup) :
    (∀ m, findAttrVal soup (str "meta") (str "name") (str "description") = some m →
      getMetaDescription soup = pyStrip ((getAttr m (str "content")).getD [])) ∧
    (findAttrVal soup (str "meta") (str "name") (str "description") = none →
      ∀ m, findAttrVal soup (str "meta") (str "property") (str "og:description") = some m →
        getMetaDescription soup = pyStrip ((getAttr m (str "content")).getD [])) ∧
    (findAttrVal soup (str "meta") (str "name") (str "description") = none →
      findAttrVal soup (str "meta") (str "property") (str "og:description") = none →
        getMetaDescription soup = []) := by
  refine ⟨fun m hm => ?_, fun hn m hm => ?_, fun hn ho => ?_⟩
  · simp [getMetaDescription, hm, Option.orElse]
  · simp [getMetaDescription, hn, hm, Option.orElse]
  · simp [getMetaDescription, hn, ho, Option.orElse]

/-- Claim C5 witness: the spec scenario — only `og:description="x"` is
present, and the meta description is `"x"`. -/
theorem C5_meta_description_witness : getMetaDescription soupOg = str "x" :=
  ((C5_meta_description_cases soupOg).2.1 (by decide) elemOg (by decide)).trans (by decide)

/-- Claim C6: the title is the trimmed text of the first title element,
empty when absent, and missing elements yield empty defaults rather than
an error (the extractor is a total function). -/
theorem C6_title_and_defaults (url : PyStr) (soup : Soup) :
    ((mkElements url soup).title = match find soup (str "title") with
      | some e => pyStrip e.text
      | none => []) ∧
    (find soup (str "title") = none → (mkElements url soup).title = []) ∧
    (findAttrVal soup (str "meta") (str "name") (str "description") = none →
      findAttrVal soup (str "meta") (str "property") (str "og:description") = none →
        (mkElements url soup).meta_description = []) ∧
    (findAll soup (str "h1") = [] → (mkElements url soup).h1 = []) := by
  refine ⟨?_, fun h => ?_, fun hn ho => ?_, fun h => ?_⟩
  · cases h : find soup (str "title") <;> simp [mkElements, getText, h]
  · simp [mkElements, getText, h]
  · simp [mkElements, getMetaDescription, hn, ho, Option.orElse]
  · simp [mkElements, extractHeadings, h]

/-- Claim C6 witness: on an empty document every field defaults. -/
theorem C6_title_and_defaults_witness :
    (mkElements (str "u") []).title = [] ∧ (mkElements (str "u") []).h1 = [] :=
  ⟨(C6_title_and_defaults (str "u") []).2.1 rfl,
   (C6_title_and_defaults (str "u") []).2.2.2 rfl⟩

/-- Claim C7: a record is in the run exactly when its URL's fetch succeeded;
failed URLs contribute nothing and the loop still reaches every later URL. -/
theorem C7_record_iff_success (delay : Rat) (fetchRaw : PyStr → Option HttpResponse)
    (parse : PyStr → Soup) (urls : List PyStr) (r : PageRecord) :
    r ∈ analyzeSerp delay fetchRaw parse urls ↔
      ∃ q ∈ List.enumFrom 1 urls, ∃ resp, fetchRaw q.2 = some resp ∧
        r = { elements := mkElements q.2 (parse resp.body), rank := q.1 } := by
  rw [analyzeSerp, analyzeLoop_snd]
  simp only [List.mem_filterMap, Option.map_eq_some']
  constructor
  · rintro ⟨q, hq, resp, hresp, rfl⟩
    exact ⟨q, hq, resp, hresp, rfl⟩
  · rintro ⟨q, hq, resp, hresp, rfl⟩
    exact ⟨q, hq, resp, hresp, rfl⟩

/-- Claim C8: when the run is empty (zero URLs or all failed), neither
variant exports anything: save_results returns before writing and the app
stops in an error state. -/
theorem C8_empty_no_export (delay : Rat) (fetchRaw : PyStr → Option HttpResponse)
    (parse : PyStr → Soup) (urls : List PyStr)
    (h : analyzeSerp delay fetchRaw parse urls = []) :
    saveResults (analyzeSerp delay fetchRaw parse urls) = SaveOutcome.noResults ∧
    (appRun delay fetchRaw parse urls).isExported = false := by
  constructor
  · simp [saveResults, h]
  · by_cases hu : urls.isEmpty
    · simp [appRun, hu, AppOutcome.isExported]
    · simp [appRun, hu, h, AppOutcome.isExported]

/-- Claim C8 witness: the zero-URL run exports nothing. -/
theorem C8_empty_no_export_witness :
    saveResults (analyzeSerp 2 fetch1 parse1 []) = SaveOutcome.noResults ∧
    (appRun 2 fetch1 parse1 []).isExported = false :=
  C8_empty_no_export 2 fetch1 parse1 [] rfl

/-- Claim C9: the run's event trace is, URL by URL in input order, a sleep
of the configured delay immediately followed by that URL's fetch — so a
pause precedes every fetch (the first included) and fetches are issued
strictly sequentially. -/
theorem C9_sequential_trace (delay : Rat) (fetchRaw : PyStr → Option HttpResponse)
    (parse : PyStr → Soup) (urls : List PyStr) :
    analyzeTrace delay fetchRaw parse urls =
      (urls.map (fun u => [Event.sleepEv delay, Event.fetchEv u])).flatten :=
  analyzeLoop_fst delay fetchRaw parse urls 1

/-- Claim C10: when a `meta name=description` element exists, it alone
determines the meta description — a missing content attribute yields the
empty string and an og:description element is never consulted. -/
theorem C10_name_description_exclusive (soup : Soup) (m : Elem)
    (h : findAttrVal soup (str "meta") (str "name") (str "description") = some m) :
    getMetaDescription soup = pyStrip ((getAttr m (str "content")).getD []) ∧
    (getAttr m (str "content") = none → getMetaDescription soup = []) := by
  have hmain : getMetaDescription soup = pyStrip ((getAttr m (str "content")).getD []) := by
    simp [getMetaDescription, h, Option.orElse]
  refine ⟨hmain, fun hc => ?_⟩
  rw [hmain, hc]
  rfl

/-- Claim C10 witness: a contentless `meta name=description` together with
an `og:description` content of `"x"` still yields the empty string. -/
theorem C10_name_description_exclusive_witness : getMetaDescription soupBoth = [] :=
  (C10_name_description_exclusive soupBoth elemNameNoContent (by decide)).2 (by decide)
